import Mathlib

/-!
Shallow embedding of `src/sentry/sentry_metrics/indexer/cloudspanner/cloudspanner.py`
(the `IdCodec` bit-reversal codec and the `RawCloudSpannerIndexer` string
indexer), together with proofs of the specified properties.

Python unbounded integers are embedded as `Nat`/`Int`; Python exceptions are
embedded as `Except` values; `Optional[int]` becomes `Option Int`.
-/

namespace Sentry

/-- Modelled from the spec: `reverse_bits(number, bit_size)` from
`sentry.sentry_metrics.indexer.id_generator` (that module is not under `src/`;
only its import appears in `cloudspanner.py`).  Per the spec it reverses the
`bit_size`-bit binary representation of `number` bit-for-bit, treating the
value as zero-extended to `bit_size` bits.  Recursively, the lowest bit of
`number` becomes the highest bit of the result. -/
def reverse_bits : Nat → Nat → Nat
  | _, 0 => 0
  | number, bit_size + 1 =>
      number % 2 * 2 ^ bit_size + reverse_bits (number / 2) bit_size

theorem reverse_bits_lt (n w : Nat) : reverse_bits n w < 2 ^ w := by
  induction w generalizing n with
  | zero => simp [reverse_bits]
  | succ w ih =>
    have h2 := ih (n / 2)
    have hp : (2 : Nat) ^ (w + 1) = 2 ^ w * 2 := pow_succ 2 w
    rcases Nat.mod_two_eq_zero_or_one n with h | h <;>
      simp only [reverse_bits, h, Nat.zero_mul, Nat.one_mul, Nat.zero_add] <;>
      omega

theorem reverse_bits_zero (w : Nat) : reverse_bits 0 w = 0 := by
  induction w with
  | zero => rfl
  | succ w ih => simp [reverse_bits, ih]

theorem testBit_reverse_bits (w : Nat) : ∀ n i : Nat, i < w →
    (reverse_bits n w).testBit i = n.testBit (w - 1 - i) := by
  induction w with
  | zero => intro n i hi; omega
  | succ w ih =>
    intro n i hi
    have hb := reverse_bits_lt (n / 2) w
    rw [show reverse_bits n (w + 1)
          = n % 2 * 2 ^ w + reverse_bits (n / 2) w from rfl]
    rw [Nat.mul_comm (n % 2) (2 ^ w), Nat.testBit_mul_pow_two_add (n % 2) hb i]
    by_cases h : i < w
    · rw [if_pos h, ih (n / 2) i h,
        show w + 1 - 1 - i = (w - 1 - i) + 1 by omega, Nat.testBit_add_one]
    · have hiw : i = w := by omega
      rw [if_neg h, hiw, Nat.sub_self,
        show w + 1 - 1 - w = 0 by omega, Nat.testBit_zero, Nat.testBit_zero]
      rcases Nat.mod_two_eq_zero_or_one n with hm | hm <;> simp [hm]

theorem reverse_bits_involution (n w : Nat) (h : n < 2 ^ w) :
    reverse_bits (reverse_bits n w) w = n := by
  apply Nat.eq_of_testBit_eq
  intro i
  by_cases hi : i < w
  · rw [testBit_reverse_bits w _ i hi,
      testBit_reverse_bits w n (w - 1 - i) (by omega),
      show w - 1 - (w - 1 - i) = i by omega]
  · have h1 : reverse_bits (reverse_bits n w) w < 2 ^ i :=
      lt_of_lt_of_le (reverse_bits_lt _ _)
        (Nat.pow_le_pow_right (by norm_num) (by omega))
    have h2 : n < 2 ^ i :=
      lt_of_lt_of_le h (Nat.pow_le_pow_right (by norm_num) (by omega))
    rw [Nat.testBit_lt_two_pow h1, Nat.testBit_lt_two_pow h2]

/-- Embeds `IdCodec.encode` from `cloudspanner.py`:
`return reverse_bits(value, 64) - 2**63`.  The 63-bit id is a nonnegative
Python int (`Nat`); the result may be negative (`Int`). -/
def IdCodec.encode (value : Nat) : Int :=
  (reverse_bits value 64 : Int) - 2 ^ 63

/-- Embeds `IdCodec.decode` from `cloudspanner.py`:
`return reverse_bits(value + 2**63, 64)`.  The stored value is a signed
64-bit integer (`Int`); `value + 2**63` is nonnegative on the valid domain. -/
def IdCodec.decode (value : Int) : Nat :=
  reverse_bits (value + 2 ^ 63).toNat 64

/-- The bit-for-bit reversal of the zero-extended 64-bit binary
representation, written directly as the spec describes it: bit `i` of the
input contributes `2 ^ (63 - i)` to the output.  Used to state the
algorithm-correspondence claim independently of `reverse_bits`. -/
def specReverse64 (n : Nat) : Nat :=
  (Finset.range 64).sum (fun i => if n.testBit i then 2 ^ (63 - i) else 0)

theorem sum_testBit_eq (w : Nat) : ∀ m : Nat, m < 2 ^ w →
    (Finset.range w).sum (fun j => if m.testBit j then 2 ^ j else 0) = m := by
  induction w with
  | zero =>
    intro m hm
    interval_cases m
    simp
  | succ w ih =>
    intro m hm
    rw [Finset.sum_range_succ']
    have hstep : ∀ i ∈ Finset.range w,
        (if m.testBit (i + 1) then 2 ^ (i + 1) else 0)
          = 2 * (if (m / 2).testBit i then 2 ^ i else 0) := by
      intro i hi
      rw [Nat.testBit_add_one]
      cases h : (m / 2).testBit i <;> simp [h, pow_succ, Nat.mul_comm]
    have hhalf : m / 2 < 2 ^ w := by
      rw [Nat.div_lt_iff_lt_mul (by norm_num)]
      exact lt_of_lt_of_eq hm (pow_succ 2 w)
    rw [Finset.sum_congr rfl hstep, ← Finset.mul_sum, ih (m / 2) hhalf,
      Nat.testBit_zero]
    rcases Nat.mod_two_eq_zero_or_one m with h | h <;> simp [h] <;> omega

theorem reverse_bits_eq_specReverse64 (n : Nat) :
    reverse_bits n 64 = specReverse64 n := by
  have h1 : specReverse64 n
      = (Finset.range 64).sum
          (fun j => if n.testBit (63 - j) then 2 ^ (63 - (63 - j)) else 0) := by
    rw [specReverse64]
    exact (Finset.sum_range_reflect
      (fun i => if n.testBit i then 2 ^ (63 - i) else 0) 64).symm
  rw [h1]
  have h2 : ∀ j ∈ Finset.range 64,
      (if n.testBit (63 - j) then 2 ^ (63 - (63 - j)) else 0)
        = (if (reverse_bits n 64).testBit j then 2 ^ j else 0) := by
    intro j hj
    rw [Finset.mem_range] at hj
    rw [testBit_reverse_bits 64 n j hj,
      show (64 : Nat) - 1 - j = 63 - j by omega,
      show 63 - (63 - j) = j by omega]
  rw [Finset.sum_congr rfl h2,
    sum_testBit_eq 64 (reverse_bits n 64) (reverse_bits_lt n 64)]

/-- C1: Codec round-trip.  For every integer `x` in `[0, 2^63)`,
`decode(encode(x)) == x` for the `IdCodec` methods. -/
theorem C1_codec_roundtrip (x : Nat) (hx : x < 2 ^ 63) :
    IdCodec.decode (IdCodec.encode x) = x := by
  rw [IdCodec.encode, IdCodec.decode, sub_add_cancel, Int.toNat_natCast]
  exact reverse_bits_involution x 64 (lt_trans hx (by norm_num))

/-- Witness for C1 at the concrete input `x = 42`. -/
theorem C1_codec_roundtrip_witness :
    (42 : Nat) < 2 ^ 63 ∧ IdCodec.decode (IdCodec.encode 42) = 42 :=
  ⟨by norm_num, C1_codec_roundtrip 42 (by norm_num)⟩

/-- C2: Codec range.  For every integer `x` in `[0, 2^63)`, `encode(x)` lies
in `[-2^63, 2^63)`, so every encoded id fits a signed 64-bit integer. -/
theorem C2_encode_range (x : Nat) (hx : x < 2 ^ 63) :
    -(2 ^ 63 : Int) ≤ IdCodec.encode x ∧ IdCodec.encode x < 2 ^ 63 := by
  have h1 := reverse_bits_lt x 64
  have h2 : (2 : Nat) ^ 64 = 18446744073709551616 := by norm_num
  have h3 : (2 : Int) ^ 63 = 9223372036854775808 := by norm_num
  rw [IdCodec.encode]
  omega

/-- Witness for C2 at the concrete input `x = 42`. -/
theorem C2_encode_range_witness :
    (42 : Nat) < 2 ^ 63 ∧
      (-(2 ^ 63 : Int) ≤ IdCodec.encode 42 ∧ IdCodec.encode 42 < 2 ^ 63) :=
  ⟨by norm_num, C2_encode_range 42 (by norm_num)⟩

/-- C3: Algorithm correspondence.  On the valid domains, `IdCodec.encode` is
exactly the spec's bit-for-bit 64-bit reversal (`specReverse64`) followed by
subtracting `2^63`, and `IdCodec.decode` is exactly the reversal of the
64-bit representation of `y + 2^63`. -/
theorem C3_codec_algorithm (x : Nat) (y : Int) (hx : x < 2 ^ 63)
    (hy1 : -(2 ^ 63) ≤ y) (hy2 : y < 2 ^ 63) :
    IdCodec.encode x = (specReverse64 x : Int) - 2 ^ 63 ∧
      IdCodec.decode y = specReverse64 (y + 2 ^ 63).toNat := by
  constructor
  · rw [IdCodec.encode, reverse_bits_eq_specReverse64]
  · rw [IdCodec.decode, reverse_bits_eq_specReverse64]

/-- Witness for C3 at the concrete inputs `x = 3`, `y = -5`. -/
theorem C3_codec_algorithm_witness :
    IdCodec.encode 3 = (specReverse64 3 : Int) - 2 ^ 63 ∧
      IdCodec.decode (-5) = specReverse64 ((-5 : Int) + 2 ^ 63).toNat :=
  C3_codec_algorithm 3 (-5) (by norm_num) (by norm_num) (by norm_num)

/-- C4: Concrete codec vector.  `IdCodec.encode 0 = -2^63`. -/
theorem C4_encode_zero : IdCodec.encode 0 = -(2 ^ 63) := by
  rw [IdCodec.encode, reverse_bits_zero]
  norm_num

/-- C9: Implicit full-domain bijection.  `decode ∘ encode` is the identity on
all of `[0, 2^64)` (not only `[0, 2^63)`), `encode ∘ decode` is the identity
on `[-2^63, 2^63)`, and each map lands in the other's domain, so the codec is
a bijection between `[0, 2^64)` and `[-2^63, 2^63)`. -/
theorem C9_full_bijection :
    (∀ x : Nat, x < 2 ^ 64 → IdCodec.decode (IdCodec.encode x) = x) ∧
    (∀ y : Int, -(2 ^ 63) ≤ y → y < 2 ^ 63 →
      IdCodec.encode (IdCodec.decode y) = y) ∧
    (∀ x : Nat, x < 2 ^ 64 →
      -(2 ^ 63 : Int) ≤ IdCodec.encode x ∧ IdCodec.encode x < 2 ^ 63) ∧
    (∀ y : Int, -(2 ^ 63) ≤ y → y < 2 ^ 63 → IdCodec.decode y < 2 ^ 64) := by
  have h2 : (2 : Nat) ^ 64 = 18446744073709551616 := by norm_num
  have h3 : (2 : Int) ^ 63 = 9223372036854775808 := by norm_num
  refine ⟨?_, ?_, ?_, ?_⟩
  · intro x hx
    rw [IdCodec.encode, IdCodec.decode, sub_add_cancel, Int.toNat_natCast]
    exact reverse_bits_involution x 64 hx
  · intro y hy1 hy2
    rw [IdCodec.decode, IdCodec.encode]
    have hnn : (0 : Int) ≤ y + 2 ^ 63 := by omega
    have hlt : (y + 2 ^ 63).toNat < 2 ^ 64 := by omega
    rw [reverse_bits_involution _ 64 hlt]
    omega
  · intro x hx
    have h1 := reverse_bits_lt x 64
    rw [IdCodec.encode]
    omega
  · intro y hy1 hy2
    rw [IdCodec.decode]
    exact reverse_bits_lt _ 64

/-- Witness for C9 at the concrete inputs `x = 2^63 + 5` (outside the spec's
domain but inside the full 64-bit domain) and `y = -7`. -/
theorem C9_full_bijection_witness :
    IdCodec.decode (IdCodec.encode (2 ^ 63 + 5)) = 2 ^ 63 + 5 ∧
      IdCodec.encode (IdCodec.decode (-7)) = -7 :=
  ⟨C9_full_bijection.1 (2 ^ 63 + 5) (by norm_num),
    C9_full_bijection.2.1 (-7) (by norm_num) (by norm_num)⟩

/-- C10: Implicit parity property.  For every `x` in `[0, 2^63)`, the encoded
id `IdCodec.encode x` is even: bit 63 of the input is zero, so the reversed
value has least-significant bit zero, and subtracting the even number `2^63`
preserves parity. -/
theorem C10_encode_even (x : Nat) (hx : x < 2 ^ 63) :
    IdCodec.encode x % 2 = 0 := by
  have hb : x.testBit 63 = false := Nat.testBit_lt_two_pow hx
  have h0 : (reverse_bits x 64).testBit 0 = false := by
    rw [testBit_reverse_bits 64 x 0 (by norm_num)]
    exact hb
  rw [Nat.testBit_zero] at h0
  simp only [decide_eq_false_iff_not] at h0
  have hm : reverse_bits x 64 % 2 = 0 := by omega
  have h3 : (2 : Int) ^ 63 = 9223372036854775808 := by norm_num
  rw [IdCodec.encode]
  omega

/-- Witness for C10 at the concrete input `x = 42`. -/
theorem C10_encode_even_witness :
    (42 : Nat) < 2 ^ 63 ∧ IdCodec.encode 42 % 2 = 0 :=
  ⟨by norm_num, C10_encode_even 42 (by norm_num)⟩

/-- Modelled from the spec: `UseCaseKey` from `sentry.sentry_metrics.configuration`
(not under `src/`): the namespace distinguishing what kind of string is
indexed. -/
inductive UseCaseKey
  | releaseHealth
  | performance
deriving DecidableEq

/-- The Python exception classes raised or caught by the embedded code. -/
inductive PyError
  | notImplementedError
  | valueError
  | otherError (message : String)
deriving DecidableEq

/-- Modelled from the spec: `KeyResult` from `sentry.sentry_metrics.indexer.base`
(not under `src/`): the outcome of resolving one `(tenant_id, raw_string)`
pair — a resolved integer id (`some`) or an absent/failed indication
(`none`). -/
structure KeyResult where
  org_id : Int
  string : String
  id : Option Int
deriving DecidableEq

/-- Modelled from the spec: `KeyResults` from `sentry.sentry_metrics.indexer.base`
(not under `src/`): an aggregate of per-key outcomes, built incrementally as
individual resolutions complete. -/
structure KeyResults where
  results : List KeyResult
deriving DecidableEq

/-- Modelled from the spec: `KeyResults.add_key_result` appends one per-key
outcome to the aggregate. -/
def KeyResults.add_key_result (kr : KeyResults) (k : KeyResult) : KeyResults :=
  ⟨kr.results ++ [k]⟩

/-- Embeds `RawCloudSpannerIndexer.record` from `cloudspanner.py`:
`raise NotImplementedError`. -/
def RawCloudSpannerIndexer.record (_use_case_id : UseCaseKey) (_org_id : Int)
    (_string : String) : Except PyError (Option Int) :=
  .error .notImplementedError

/-- Embeds `RawCloudSpannerIndexer.resolve` from `cloudspanner.py`:
`raise NotImplementedError`. -/
def RawCloudSpannerIndexer.resolve (_use_case_id : UseCaseKey) (_org_id : Int)
    (_string : String) : Except PyError (Option Int) :=
  .error .notImplementedError

/-- Embeds `RawCloudSpannerIndexer.reverse_resolve` from `cloudspanner.py`:
`raise NotImplementedError`. -/
def RawCloudSpannerIndexer.reverse_resolve (_use_case_id : UseCaseKey)
    (_org_id : Int) (_id : Int) : Except PyError (Option String) :=
  .error .notImplementedError

/-- Embeds `RawCloudSpannerIndexer.validate` from `cloudspanner.py`: the
`SELECT 1` liveness query is run inside `try: ... except ValueError: pass`,
so a `ValueError` outcome is suppressed and every other exception
propagates.  The outcome of `snapshot.execute_sql("SELECT 1")` is passed in
as an `Except` value. -/
def RawCloudSpannerIndexer.validate
    (execute_sql_outcome : Except PyError Unit) : Except PyError Unit :=
  match execute_sql_outcome with
  | .ok _ => .ok ()
  | .error .valueError => .ok ()
  | .error e => .error e

/-- Embeds the inner loop of `RawCloudSpannerIndexer.bulk_record`: for each
`string` in `strings`, call `self.record(use_case_id, org_id, string)` and
append `KeyResult(org_id, string, result)` to the accumulator.  The
dynamically dispatched `self.record` is the parameter `record_fn`; an
exception from it propagates (the Python loop has no `try`). -/
def RawCloudSpannerIndexer.recordStrings
    (record_fn : UseCaseKey → Int → String → Except PyError (Option Int))
    (use_case_id : UseCaseKey) (org_id : Int) :
    List String → KeyResults → Except PyError KeyResults
  | [], key_results => .ok key_results
  | string :: rest, key_results =>
    match record_fn use_case_id org_id string with
    | .error e => .error e
    | .ok result =>
      RawCloudSpannerIndexer.recordStrings record_fn use_case_id org_id rest
        (key_results.add_key_result ⟨org_id, string, result⟩)

/-- Embeds the outer loop of `RawCloudSpannerIndexer.bulk_record` over
`org_strings.items()`. -/
def RawCloudSpannerIndexer.recordOrgs
    (record_fn : UseCaseKey → Int → String → Except PyError (Option Int))
    (use_case_id : UseCaseKey) :
    List (Int × List String) → KeyResults → Except PyError KeyResults
  | [], key_results => .ok key_results
  | (org_id, strings) :: rest, key_results =>
    match RawCloudSpannerIndexer.recordStrings record_fn use_case_id org_id
        strings key_results with
    | .error e => .error e
    | .ok key_results2 =>
      RawCloudSpannerIndexer.recordOrgs record_fn use_case_id rest key_results2

/-- Embeds `RawCloudSpannerIndexer.bulk_record` from `cloudspanner.py`:
starts from an empty `KeyResults()` and calls `record` on every
`(org_id, string)` item.  `org_strings` (a Python mapping of orgs to string
sets) is embedded as an association list; `record_fn` is the dispatched
`self.record` method. -/
def RawCloudSpannerIndexer.bulk_record
    (record_fn : UseCaseKey → Int → String → Except PyError (Option Int))
    (use_case_id : UseCaseKey) (org_strings : List (Int × List String)) :
    Except PyError KeyResults :=
  RawCloudSpannerIndexer.recordOrgs record_fn use_case_id org_strings ⟨[]⟩

/-- All `(org_id, string)` pairs of a batch, in iteration order. -/
def pairsOf : List (Int × List String) → List (Int × String)
  | [] => []
  | (org_id, strings) :: rest =>
      strings.map (fun s => (org_id, s)) ++ pairsOf rest

theorem recordStrings_ok
    (record_fn : UseCaseKey → Int → String → Except PyError (Option Int))
    (u : UseCaseKey) (o : Int) (val : Int → String → Option Int) :
    ∀ (ss : List String) (acc : KeyResults),
      (∀ s ∈ ss, record_fn u o s = Except.ok (val o s)) →
      RawCloudSpannerIndexer.recordStrings record_fn u o ss acc
        = Except.ok ⟨acc.results ++ ss.map (fun s => ⟨o, s, val o s⟩)⟩ := by
  intro ss
  induction ss with
  | nil =>
    intro acc h
    simp [RawCloudSpannerIndexer.recordStrings]
  | cons s rest ih =>
    intro acc h
    have hs : record_fn u o s = Except.ok (val o s) :=
      h s (List.mem_cons_self s rest)
    have hrest : ∀ t ∈ rest, record_fn u o t = Except.ok (val o t) :=
      fun t ht => h t (List.mem_cons_of_mem s ht)
    simp only [RawCloudSpannerIndexer.recordStrings, hs]
    rw [ih (acc.add_key_result ⟨o, s, val o s⟩) hrest]
    simp [KeyResults.add_key_result]

theorem recordOrgs_ok
    (record_fn : UseCaseKey → Int → String → Except PyError (Option Int))
    (u : UseCaseKey) (val : Int → String → Option Int) :
    ∀ (os : List (Int × List String)) (acc : KeyResults),
      (∀ p ∈ pairsOf os, record_fn u p.1 p.2 = Except.ok (val p.1 p.2)) →
      RawCloudSpannerIndexer.recordOrgs record_fn u os acc
        = Except.ok
            ⟨acc.results ++ (pairsOf os).map (fun p => ⟨p.1, p.2, val p.1 p.2⟩)⟩ := by
  intro os
  induction os with
  | nil =>
    intro acc h
    simp [RawCloudSpannerIndexer.recordOrgs, pairsOf]
  | cons p rest ih =>
    obtain ⟨o, ss⟩ := p
    intro acc h
    have h1 : ∀ s ∈ ss, record_fn u o s = Except.ok (val o s) := by
      intro s hs
      exact h (o, s) (by
        simp only [pairsOf]
        exact List.mem_append_left _ (List.mem_map.mpr ⟨s, hs, rfl⟩))
    have h2 : ∀ q ∈ pairsOf rest, record_fn u q.1 q.2 = Except.ok (val q.1 q.2) := by
      intro q hq
      exact h q (by
        simp only [pairsOf]
        exact List.mem_append_right _ hq)
    simp only [RawCloudSpannerIndexer.recordOrgs,
      recordStrings_ok record_fn u o val ss acc h1]
    rw [ih _ h2]
    simp [pairsOf, List.map_append, List.map_map, List.append_assoc,
      Function.comp]

theorem bulk_record_ok
    (record_fn : UseCaseKey → Int → String → Except PyError (Option Int))
    (u : UseCaseKey) (val : Int → String → Option Int)
    (os : List (Int × List String))
    (h : ∀ p ∈ pairsOf os, record_fn u p.1 p.2 = Except.ok (val p.1 p.2)) :
    RawCloudSpannerIndexer.bulk_record record_fn u os
      = Except.ok ⟨(pairsOf os).map (fun p => ⟨p.1, p.2, val p.1 p.2⟩)⟩ := by
  rw [RawCloudSpannerIndexer.bulk_record, recordOrgs_ok record_fn u val os ⟨[]⟩ h]
  simp

/-- C5: Batch partial success.  If every per-key `record` call returns
normally and exactly one `(org_id, string)` pair resolves to the absent
result `none` (the per-key failure indication) while all other pairs resolve
to `some` id, then `bulk_record` returns normally (no exception) with a
`KeyResults` holding a successful `KeyResult` for every unaffected key and a
`none`-valued `KeyResult` for the affected key. -/
theorem C5_bulk_record_partial_failure
    (record_fn : UseCaseKey → Int → String → Except PyError (Option Int))
    (u : UseCaseKey) (os : List (Int × List String))
    (val : Int → String → Option Int) (bad : Int × String)
    (hrec : ∀ p ∈ pairsOf os, record_fn u p.1 p.2 = Except.ok (val p.1 p.2))
    (hmem : bad ∈ pairsOf os)
    (hbad : val bad.1 bad.2 = none)
    (hgood : ∀ p ∈ pairsOf os, p ≠ bad → (val p.1 p.2).isSome = true) :
    ∃ kr : KeyResults,
      RawCloudSpannerIndexer.bulk_record record_fn u os = Except.ok kr ∧
      (∀ p ∈ pairsOf os, p ≠ bad →
        KeyResult.mk p.1 p.2 (val p.1 p.2) ∈ kr.results ∧
          (val p.1 p.2).isSome = true) ∧
      KeyResult.mk bad.1 bad.2 none ∈ kr.results := by
  refine ⟨⟨(pairsOf os).map (fun p => ⟨p.1, p.2, val p.1 p.2⟩)⟩,
    bulk_record_ok record_fn u val os hrec, ?_, ?_⟩
  · intro p hp hne
    exact ⟨List.mem_map.mpr ⟨p, hp, rfl⟩, hgood p hp hne⟩
  · refine List.mem_map.mpr ⟨bad, hmem, ?_⟩
    simp [hbad]

/-- A concrete per-key resolution outcome: `"a"` resolves, `"b"` fails. -/
def exampleVal (s : String) : Option Int :=
  if s = "a" then some 5 else none

/-- A concrete dispatched `record` method returning `exampleVal` outcomes. -/
def exampleRecordFn (_ : UseCaseKey) (_ : Int) (s : String) :
    Except PyError (Option Int) :=
  Except.ok (exampleVal s)

/-- A concrete two-string batch for one tenant. -/
def exampleBatch : List (Int × List String) :=
  [(1, ["a", "b"])]

/-- Witness for C5 on the concrete batch `{1: {"a", "b"}}` where only the
key `(1, "b")` fails to resolve. -/
theorem C5_bulk_record_partial_failure_witness :
    ∃ kr : KeyResults,
      RawCloudSpannerIndexer.bulk_record exampleRecordFn UseCaseKey.performance
          exampleBatch = Except.ok kr ∧
      (∀ p ∈ pairsOf exampleBatch, p ≠ ((1 : Int), "b") →
        KeyResult.mk p.1 p.2 (exampleVal p.2) ∈ kr.results ∧
          (exampleVal p.2).isSome = true) ∧
      KeyResult.mk 1 "b" none ∈ kr.results :=
  C5_bulk_record_partial_failure exampleRecordFn UseCaseKey.performance
    exampleBatch (fun _ s => exampleVal s) (1, "b")
    (fun _ _ => rfl) (by decide) (by decide) (by decide)

/-- C6: `bulk_record` completeness.  If the per-key `record` operation
returns a result (possibly `none`) for every key of the batch, then
`bulk_record` returns a `KeyResults` whose entries' keys are exactly the
`(org_id, string)` pairs of the batch, one `KeyResult` per pair. -/
theorem C6_bulk_record_complete
    (record_fn : UseCaseKey → Int → String → Except PyError (Option Int))
    (u : UseCaseKey) (os : List (Int × List String))
    (val : Int → String → Option Int)
    (hrec : ∀ p ∈ pairsOf os, record_fn u p.1 p.2 = Except.ok (val p.1 p.2))
    (hnd : (pairsOf os).Nodup) :
    ∃ kr : KeyResults,
      RawCloudSpannerIndexer.bulk_record record_fn u os = Except.ok kr ∧
      kr.results.map (fun k => (k.org_id, k.string)) = pairsOf os ∧
      ∀ p ∈ pairsOf os,
        kr.results.countP (fun k => decide ((k.org_id, k.string) = p)) = 1 := by
  have hmap :
      ((pairsOf os).map (fun p => KeyResult.mk p.1 p.2 (val p.1 p.2))).map
          (fun k => (k.org_id, k.string)) = pairsOf os := by
    simp [List.map_map, Function.comp_def]
  refine ⟨⟨(pairsOf os).map (fun p => ⟨p.1, p.2, val p.1 p.2⟩)⟩,
    bulk_record_ok record_fn u val os hrec, hmap, ?_⟩
  intro p hp
  have h1 : ((pairsOf os).map
        (fun q => KeyResult.mk q.1 q.2 (val q.1 q.2))).countP
          (fun k => decide ((k.org_id, k.string) = p))
      = (pairsOf os).countP (fun q => decide (q = p)) := by
    rw [List.countP_map]
    have hfun : ((fun k : KeyResult => decide ((k.org_id, k.string) = p)) ∘
          (fun q : Int × String => KeyResult.mk q.1 q.2 (val q.1 q.2)))
        = (fun q : Int × String => decide (q = p)) := by
      funext q
      simp
    rw [hfun]
  rw [h1]
  exact List.count_eq_one_of_mem hnd hp

/-- Witness for C6 on the concrete batch `{1: {"a", "b"}}`. -/
theorem C6_bulk_record_complete_witness :
    ∃ kr : KeyResults,
      RawCloudSpannerIndexer.bulk_record exampleRecordFn UseCaseKey.performance
          exampleBatch = Except.ok kr ∧
      kr.results.map (fun k => (k.org_id, k.string)) = pairsOf exampleBatch ∧
      ∀ p ∈ pairsOf exampleBatch,
        kr.results.countP (fun k => decide ((k.org_id, k.string) = p)) = 1 :=
  C6_bulk_record_complete exampleRecordFn UseCaseKey.performance exampleBatch
    (fun _ s => exampleVal s) (fun _ _ => rfl) (by decide)

/-- C7: Not-implemented is distinct from absent.  For every input, the
`RawCloudSpannerIndexer` operations `record`, `resolve` and
`reverse_resolve` raise `NotImplementedError` and in particular never return
the explicit absent result `None`, so callers can distinguish an
unimplemented operation from a key that was not found. -/
theorem C7_not_implemented_distinct (u : UseCaseKey) (o : Int) (s : String)
    (i : Int) :
    RawCloudSpannerIndexer.record u o s
        = Except.error PyError.notImplementedError ∧
    RawCloudSpannerIndexer.record u o s ≠ Except.ok none ∧
    RawCloudSpannerIndexer.resolve u o s
        = Except.error PyError.notImplementedError ∧
    RawCloudSpannerIndexer.resolve u o s ≠ Except.ok none ∧
    RawCloudSpannerIndexer.reverse_resolve u o i
        = Except.error PyError.notImplementedError ∧
    RawCloudSpannerIndexer.reverse_resolve u o i ≠ Except.ok none :=
  ⟨rfl, fun h => Except.noConfusion h, rfl, fun h => Except.noConfusion h,
    rfl, fun h => Except.noConfusion h⟩

/-- C8: Liveness-check error policy.  `validate` suppresses a `ValueError`
raised by the trivial `SELECT 1` query (returning normally) and propagates
every other exception to the caller. -/
theorem C8_validate_error_policy :
    RawCloudSpannerIndexer.validate (Except.error PyError.valueError)
        = Except.ok () ∧
    ∀ e : PyError, e ≠ PyError.valueError →
      RawCloudSpannerIndexer.validate (Except.error e) = Except.error e := by
  constructor
  · rfl
  · intro e he
    cases e with
    | notImplementedError => rfl
    | valueError => exact absurd rfl he
    | otherError m => rfl

/-- Witness for C8 at the concrete non-`ValueError` exception
`NotImplementedError`. -/
theorem C8_validate_error_policy_witness :
    PyError.notImplementedError ≠ PyError.valueError ∧
    RawCloudSpannerIndexer.validate (Except.error PyError.notImplementedError)
        = Except.error PyError.notImplementedError :=
  ⟨by decide, C8_validate_error_policy.2 PyError.notImplementedError (by decide)⟩

end Sentry
